import Mathlib

namespace ClassicCaps

/-! ## JavaScript string primitives used by the services -/

/-- JS `String.prototype.split(sep)` for a single-character separator:
`"a-b".split('-') = ["a","b"]`, `"".split('-') = [""]`, `"a-".split('-') = ["a",""]`. -/
def splitOnChar (sep : Char) : List Char → List (List Char)
  | [] => [[]]
  | c :: rest =>
    if c = sep then [] :: splitOnChar sep rest
    else
      match splitOnChar sep rest with
      | [] => [[c]]
      | t :: ts => (c :: t) :: ts

/-- JS `Number(s)` restricted to strings of decimal digits (the only shape the
services feed it: grid rows/columns and formation line sizes). -/
def charsToNat (l : List Char) : Nat :=
  l.foldl (fun a c => a * 10 + (c.toNat - 48)) 0

namespace FootballAPIService

/-- Embedding of `convertGridToPosition(grid, formation)`.

```ts
const [row, col] = grid.split(':').map(Number);
if (row === 1) return 0;
const formationParts = formation.split('-').map(Number);
let position = 1;
for (let i = 0; i < row - 2 && i < formationParts.length; i++) {
  position += formationParts[i];
}
position += col - 1;
return position;
```

The destructuring `[row, col]` reads indices 0 and 1 of the split result;
an out-of-range read (JS `undefined`, propagating to `NaN`) is modelled as 0
and is never exercised by the theorems, which pin the parsed shape. The loop
adds `formationParts[i]` for all `i < row - 2` that are in range, which is
`(formationParts.take (row-2)).sum`. -/
def convertGridToPosition (grid formation : List Char) : Int :=
  let nums := (splitOnChar ':' grid).map charsToNat
  let row : Nat := nums.getD 0 0
  let col : Nat := nums.getD 1 0
  if row = 1 then 0
  else
    let formationParts := (splitOnChar '-' formation).map charsToNat
    let position : Int := 1 + ((formationParts.take (row - 2)).sum : Nat)
    position + ((col : Int) - 1)

/-- The formation-line sizes parsed from a formation string, e.g.
`"4-4-2" → [4, 4, 2]` (line with index `i` plays in grid row `i + 2`). -/
def parseFormation (formation : List Char) : List Nat :=
  (splitOnChar '-' formation).map charsToNat

/-- Spec-side sum: the formation-line sizes of all grid rows `r'` with
`2 ≤ r' < row`; line `i` of the parsed formation stands at grid row `i + 2`. -/
def specLineSum (parts : List Nat) (row : Nat) : Nat :=
  ((List.range parts.length).map
    (fun i => if 2 ≤ i + 2 ∧ i + 2 < row then parts.getD i 0 else 0)).sum

end FootballAPIService

namespace StorageService

/-- A cached record as serialized to localStorage:
`{ data, timestamp: Date.now(), ttl }`. -/
structure CacheEntry (α : Type) where
  data : α
  timestamp : Nat
  ttl : Nat
deriving DecidableEq

/-- The relevant slice of localStorage: an association from (unprefixed) cache
keys to entries.  The constant `classic-caps-api-cache-` prefix is a bijection
on keys and is dropped from the model. -/
def Storage (α : Type) : Type := List (String × CacheEntry α)

/-- Model of `localStorage.setItem`: replace the value under `key`, or append. -/
def setItem {β : Type} (key : String) (v : β) : List (String × β) → List (String × β)
  | [] => [(key, v)]
  | (k, w) :: t => if k = key then (key, v) :: t else (k, w) :: setItem key v t

/-- Model of `localStorage.removeItem`. -/
def removeItem {β : Type} (key : String) (st : List (String × β)) : List (String × β) :=
  st.filter (fun p => p.1 != key)

/-- Model of `localStorage.getItem`. -/
def getItem {β : Type} (key : String) : List (String × β) → Option β
  | [] => none
  | (k, w) :: t => if k = key then some w else getItem key t

/-- Model of `StorageService.saveCacheEntry(key, data, ttl)` at current time `now`:
stores `{ data, timestamp: now, ttl }` under the key. -/
def saveCacheEntry {α : Type} (key : String) (d : α) (ttl : Nat) (now : Nat)
    (st : Storage α) : Storage α :=
  setItem key ⟨d, now, ttl⟩ st

/-- Model of `StorageService.getCacheEntry(key)` at current time `now`: returns the data
if present and `now - timestamp < ttl`; an expired entry is removed and `null`
(`none`) is returned.  Returns both the lookup result and the storage after the
call. -/
def getCacheEntry {α : Type} (key : String) (now : Nat) (st : Storage α) :
    Option α × Storage α :=
  match getItem key st with
  | none => (none, st)
  | some e =>
    if (e.ttl : Int) ≤ (now : Int) - (e.timestamp : Int) then (none, removeItem key st)
    else (some e.data, st)

end StorageService

/-! ## `APIError` and the fetch pipeline (src/lib/storage.ts:393-402, 715-894) -/

/-- Model of `class APIError extends Error { statusCode; message; retryable }`. -/
structure APIError where
  statusCode : Nat
  message : String
  retryable : Bool
deriving DecidableEq

/-- An error surfaced by a service method: either an `APIError` thrown by the
fetch pipeline, or a plain `Error` (as thrown by `getLineup`'s validation). -/
inductive ServiceError where
  | api (e : APIError)
  | plain (message : String)
deriving DecidableEq

namespace FootballAPIService

/-- Model of `MAX_RETRIES = 3`. -/
def MAX_RETRIES : Nat := 3

/-- Model of `INITIAL_RETRY_DELAY = 1000` (milliseconds). -/
def INITIAL_RETRY_DELAY : Nat := 1000

/-- One HTTP response as seen by `fetchAPI`: status line, optional integral
`Retry-After` header (seconds), and the parsed JSON body
(`{ errors, response }`). -/
structure HTTPResponse (T : Type) where
  status : Nat
  statusText : String
  retryAfter : Option Nat
  errors : List String
  response : List T

/-- The outcome of one `fetch` call: a response, a rejection with a `TypeError`
mentioning fetch (network failure), or any other thrown value. -/
inductive FetchOutcome (T : Type) where
  | success (r : HTTPResponse T)
  | networkFailure
  | unexpectedFailure

/-- Model of `handleAPIError(statusCode, statusText)`: builds the `APIError` that the
method throws (the `switch` is translated to an if-chain). -/
def handleAPIError (statusCode : Nat) (statusText : String) : APIError :=
  if statusCode = 400 then
    ⟨400, "Invalid request. Please check your selection and try again.", false⟩
  else if statusCode = 401 then
    ⟨401, "API authentication failed. Please check your API key configuration.", false⟩
  else if statusCode = 403 then
    ⟨403, "Access forbidden. Your API key may not have permission for this resource.", false⟩
  else if statusCode = 404 then
    ⟨404, "The requested data was not found. This fixture may not have lineup data available.",
      false⟩
  else if statusCode = 429 then
    ⟨429, "Rate limit exceeded. Please wait a moment and try again.", true⟩
  else if statusCode = 500 ∨ statusCode = 502 ∨ statusCode = 503 ∨ statusCode = 504 then
    ⟨statusCode, "The football API is temporarily unavailable. Please try again in a moment.",
      true⟩
  else
    ⟨statusCode, "API request failed: " ++ toString statusCode ++ " " ++ statusText,
      decide (500 ≤ statusCode)⟩

/-- Model of `handleRateLimit(response, retryCount)`: `Retry-After` seconds when present
and integral, else exponential backoff `INITIAL_RETRY_DELAY * 2^retryCount`. -/
def handleRateLimit {T : Type} (r : HTTPResponse T) (retryCount : Nat) : Nat :=
  match r.retryAfter with
  | some secs => secs * 1000
  | none => INITIAL_RETRY_DELAY * 2 ^ retryCount

/-- Model of `fetchAPI(endpoint, retryCount)`.  The successive `fetch` outcomes for one
logical request are supplied as `attempts` (attempt `n` is the call made with
`retryCount = n`); `offline` is `navigator.onLine`'s negation at call time.

Returns the settled result (`Except APIError` — every failure the method can
propagate is an `APIError`), the number of HTTP attempts performed, and the
list of backoff delays slept between attempts. -/
def fetchAPI {T : Type} (attempts : Nat → FetchOutcome T) (offline : Bool)
    (retryCount : Nat) : Except APIError (List T) × Nat × List Nat :=
  if offline then
    (.error ⟨0, "You appear to be offline. Please check your internet connection and try again.",
      true⟩, 0, [])
  else
    match attempts retryCount with
    | .networkFailure =>
      (.error ⟨0, "Network error. Please check your internet connection and try again.", true⟩,
        1, [])
    | .unexpectedFailure =>
      (.error ⟨0, "An unexpected error occurred. Please try again.", true⟩, 1, [])
    | .success r =>
      if r.status = 429 then
        if h : retryCount < MAX_RETRIES then
          let delay := handleRateLimit r retryCount
          let rest := fetchAPI attempts offline (retryCount + 1)
          (rest.1, rest.2.1 + 1, delay :: rest.2.2)
        else
          (.error (handleAPIError r.status r.statusText), 1, [])
      else if 200 ≤ r.status ∧ r.status ≤ 299 then
        if r.errors ≠ [] then
          (.error ⟨400, "The API returned an error. Please try again.", false⟩, 1, [])
        else
          (.ok r.response, 1, [])
      else
        if h : 500 ≤ r.status ∧ retryCount < MAX_RETRIES then
          let delay := INITIAL_RETRY_DELAY * 2 ^ retryCount
          let rest := fetchAPI attempts offline (retryCount + 1)
          (rest.1, rest.2.1 + 1, delay :: rest.2.2)
        else
          (.error (handleAPIError r.status r.statusText), 1, [])
  termination_by MAX_RETRIES - retryCount
  decreasing_by
  · exact Nat.sub_lt_sub_left h (Nat.lt_succ_self retryCount)
  · exact Nat.sub_lt_sub_left h.2 (Nat.lt_succ_self retryCount)

/-! ### `getLineup` (src/lib/storage.ts:629-675) -/

/-- Model of `CACHE_TTL_INDEFINITE = 365 * 24 * 60 * 60 * 1000` ("1 year for indefinite"). -/
def CACHE_TTL_INDEFINITE : Nat := 365 * 24 * 60 * 60 * 1000

/-- A raw player record inside the external lineup payload. -/
structure RawPlayer where
  id : Nat
  name : String
  number : Nat
  pos : String
  grid : List Char
deriving DecidableEq

/-- One element of the payload's `startXI` array: `{ player: {...} }`. -/
structure StartXIItem where
  player : RawPlayer
deriving DecidableEq

/-- The `team` object of a payload entry. -/
structure TeamInfo where
  id : Nat
  name : String
deriving DecidableEq

/-- One entry of the `/fixtures/lineups` payload (the payload carries one entry
per competing team). -/
structure TeamLineupResponse where
  team : TeamInfo
  formation : List Char
  startXI : List StartXIItem
deriving DecidableEq

/-- The internal `Player` model produced by the transform in `getLineup`. -/
structure Player where
  id : Nat
  name : String
  number : Nat
  position : String
  gridPosition : Int
deriving DecidableEq

/-- The internal `Lineup` model. -/
structure Lineup where
  fixtureId : Nat
  teamId : Nat
  teamName : String
  formation : List Char
  startXI : List Player
deriving DecidableEq

/-- The cache key `` `lineup-${fixtureId}-${teamId}` ``. -/
def lineupCacheKey (fixtureId teamId : Nat) : String :=
  "lineup-" ++ toString fixtureId ++ "-" ++ toString teamId

/-- Model of `getLineup(fixtureId, teamId)`.  The outcome of the underlying
`fetchAPI('/fixtures/lineups?fixture=...')` call is supplied as `fetched`
(`Except.error` when the pipeline threw an `APIError`).  Returns the settled
result, the storage after the call, and whether a network fetch was performed
(`false` exactly on a cache hit). -/
def getLineup (fixtureId teamId : Nat) (now : Nat)
    (fetched : Except APIError (List TeamLineupResponse))
    (st : StorageService.Storage Lineup) :
    Except ServiceError Lineup × StorageService.Storage Lineup × Bool :=
  match StorageService.getCacheEntry (lineupCacheKey fixtureId teamId) now st with
  | (some cached, st1) => (Except.ok cached, st1, false)
  | (none, st1) =>
    match fetched with
    | .error e => (.error (.api e), st1, true)
    | .ok response =>
      match response.find? (fun item => item.team.id == teamId) with
      | none =>
        (.error (.plain ("Lineup not found for team " ++ toString teamId ++ " in fixture "
          ++ toString fixtureId)), st1, true)
      | some teamLineup =>
        let lineup : Lineup :=
          { fixtureId := fixtureId
            teamId := teamLineup.team.id
            teamName := teamLineup.team.name
            formation := teamLineup.formation
            startXI := teamLineup.startXI.map (fun item =>
              { id := item.player.id
                name := item.player.name
                number := item.player.number
                position := item.player.pos
                gridPosition := convertGridToPosition item.player.grid teamLineup.formation }) }
        if lineup.startXI.length ≠ 11 then
          (.error (.plain ("Invalid lineup: expected 11 players, got "
            ++ toString lineup.startXI.length)), st1, true)
        else
          (.ok lineup,
           StorageService.saveCacheEntry (lineupCacheKey fixtureId teamId) lineup
             CACHE_TTL_INDEFINITE now st1, true)

/-! ### Request deduplication (src/lib/storage.ts:421-483 and 578-617)

The service is single-threaded and cooperative: a logical call is split into
its synchronous prefix (cache lookup, pending-request bookkeeping, issuing the
fetch) and its settlement (the code run when the fetch resolves or rejects).
Concurrency is an interleaving of these steps. -/

/-- Model of `CACHE_TTL_30_DAYS = 30 * 24 * 60 * 60 * 1000`. -/
def CACHE_TTL_30_DAYS : Nat := 30 * 24 * 60 * 60 * 1000

/-- The mutable state the data-access operations share: the
`pendingRequests: Map<string, Promise<any>>` key set, the persistent cache,
and a count of network calls issued (instrumentation of `fetchAPI` calls). -/
structure DedupState (α : Type) where
  pending : List String
  cache : StorageService.Storage α
  networkCalls : Nat

/-- What the synchronous prefix of a call returns to its caller. -/
inductive StartResult (α : Type) where
  | fromCache (v : α)
  | joinedPending
  | startedFetch
deriving DecidableEq

/-- The synchronous prefix of `getLeagues()`: cache lookup; then the
pending-request check (`if (this.pendingRequests.has(cacheKey)) return ...`);
otherwise the request promise is created (the fetch is issued) and stored. -/
def getLeaguesStart {α : Type} (now : Nat) (s : DedupState α) :
    StartResult α × DedupState α :=
  match StorageService.getCacheEntry "leagues" now s.cache with
  | (some v, c1) => (.fromCache v, { s with cache := c1 })
  | (none, c1) =>
    if "leagues" ∈ s.pending then (.joinedPending, { s with cache := c1 })
    else
      (.startedFetch,
       { pending := "leagues" :: s.pending, cache := c1, networkCalls := s.networkCalls + 1 })

/-- Settlement of a successful `getLeagues()` fetch: write-through to the cache,
then the `finally` clause deletes the pending marker. -/
def getLeaguesSettleSuccess {α : Type} (leagues : α) (now : Nat) (s : DedupState α) :
    DedupState α :=
  { s with
    cache := StorageService.saveCacheEntry "leagues" leagues CACHE_TTL_30_DAYS now s.cache
    pending := s.pending.erase "leagues" }

/-- Settlement of a failed `getLeagues()` fetch: only the `finally` clause runs,
deleting the pending marker. -/
def getLeaguesSettleFailure {α : Type} (s : DedupState α) : DedupState α :=
  { s with pending := s.pending.erase "leagues" }

/-- The cache key `` `fixtures-${teamId}-${season}` ``. -/
def fixturesCacheKey (teamId season : Nat) : String :=
  "fixtures-" ++ toString teamId ++ "-" ++ toString season

/-- The synchronous prefix of `getFixtures(teamId, season)`: cache lookup, then
straight to `fetchAPI` — the source has no pending-request check and never
touches `pendingRequests` here. -/
def getFixturesStart {α : Type} (teamId season : Nat) (now : Nat) (s : DedupState α) :
    StartResult α × DedupState α :=
  match StorageService.getCacheEntry (fixturesCacheKey teamId season) now s.cache with
  | (some v, c1) => (.fromCache v, { s with cache := c1 })
  | (none, c1) =>
    (.startedFetch, { s with cache := c1, networkCalls := s.networkCalls + 1 })

end FootballAPIService

namespace NameMatchingService

/-- JS whitespace (`\s`, and the characters `trim()` strips). -/
def ws (c : Char) : Bool :=
  c == ' ' || c.toNat == 9 || c.toNat == 10 || c.toNat == 11 || c.toNat == 12 ||
  c.toNat == 13 || c.toNat == 0xA0 || c.toNat == 0x2028 || c.toNat == 0x2029 ||
  c.toNat == 0xFEFF

/-- Combining diacritical marks, the range `[̀-ͯ]` stripped by
`normalize`. -/
def comb (c : Char) : Bool :=
  decide (0x300 ≤ c.toNat) && decide (c.toNat ≤ 0x36F)

/-- JS `toLowerCase()` on the modelled repertoire: ASCII `A`-`Z` and Latin-1
`À`-`Þ` (except `×`) map down by 32; everything else is fixed. -/
def lower (c : Char) : Char :=
  if 0x41 ≤ c.toNat ∧ c.toNat ≤ 0x5A then Char.ofNat (c.toNat + 32)
  else if 0xC0 ≤ c.toNat ∧ c.toNat ≤ 0xDE ∧ c.toNat ≠ 0xD7 then Char.ofNat (c.toNat + 32)
  else c

/-- Association-list lookup (used for the NFD table). -/
def assocLookup {κ β : Type} [DecidableEq κ] (key : κ) : List (κ × β) → Option β
  | [] => none
  | (k, w) :: t => if k = key then some w else assocLookup key t

/-- Canonical (NFD) decompositions on the modelled repertoire. -/
def nfdTable : List (Char × List Char) :=
  [('À', ['A', Char.ofNat 0x300]), ('Á', ['A', Char.ofNat 0x301]),
   ('Â', ['A', Char.ofNat 0x302]), ('Ã', ['A', Char.ofNat 0x303]),
   ('Ä', ['A', Char.ofNat 0x308]), ('Å', ['A', Char.ofNat 0x30A]),
   ('Ç', ['C', Char.ofNat 0x327]), ('È', ['E', Char.ofNat 0x300]),
   ('É', ['E', Char.ofNat 0x301]), ('Ê', ['E', Char.ofNat 0x302]),
   ('Ë', ['E', Char.ofNat 0x308]), ('Ì', ['I', Char.ofNat 0x300]),
   ('Í', ['I', Char.ofNat 0x301]), ('Î', ['I', Char.ofNat 0x302]),
   ('Ï', ['I', Char.ofNat 0x308]), ('Ñ', ['N', Char.ofNat 0x303]),
   ('Ò', ['O', Char.ofNat 0x300]), ('Ó', ['O', Char.ofNat 0x301]),
   ('Ô', ['O', Char.ofNat 0x302]), ('Õ', ['O', Char.ofNat 0x303]),
   ('Ö', ['O', Char.ofNat 0x308]), ('Ù', ['U', Char.ofNat 0x300]),
   ('Ú', ['U', Char.ofNat 0x301]), ('Û', ['U', Char.ofNat 0x302]),
   ('Ü', ['U', Char.ofNat 0x308]), ('Ý', ['Y', Char.ofNat 0x301]),
   ('à', ['a', Char.ofNat 0x300]), ('á', ['a', Char.ofNat 0x301]),
   ('â', ['a', Char.ofNat 0x302]), ('ã', ['a', Char.ofNat 0x303]),
   ('ä', ['a', Char.ofNat 0x308]), ('å', ['a', Char.ofNat 0x30A]),
   ('ç', ['c', Char.ofNat 0x327]), ('è', ['e', Char.ofNat 0x300]),
   ('é', ['e', Char.ofNat 0x301]), ('ê', ['e', Char.ofNat 0x302]),
   ('ë', ['e', Char.ofNat 0x308]), ('ì', ['i', Char.ofNat 0x300]),
   ('í', ['i', Char.ofNat 0x301]), ('î', ['i', Char.ofNat 0x302]),
   ('ï', ['i', Char.ofNat 0x308]), ('ñ', ['n', Char.ofNat 0x303]),
   ('ò', ['o', Char.ofNat 0x300]), ('ó', ['o', Char.ofNat 0x301]),
   ('ô', ['o', Char.ofNat 0x302]), ('õ', ['o', Char.ofNat 0x303]),
   ('ö', ['o', Char.ofNat 0x308]), ('ù', ['u', Char.ofNat 0x300]),
   ('ú', ['u', Char.ofNat 0x301]), ('û', ['u', Char.ofNat 0x302]),
   ('ü', ['u', Char.ofNat 0x308]), ('ý', ['y', Char.ofNat 0x301]),
   ('ÿ', ['y', Char.ofNat 0x308]), (Char.ofNat 0x130, ['I', Char.ofNat 0x307])]

/-- Model of `String.prototype.normalize('NFD')` on one character. -/
def nfd (c : Char) : List Char :=
  (assocLookup c nfdTable).getD [c]

/-- Concatenated map (`flatMap` over a list of characters). -/
def concatMap {A B : Type} (f : A → List B) : List A → List B
  | [] => []
  | a :: t => f a ++ concatMap f t

/-- The per-character composite of the normalization pipeline's first three
stages: decompose, strip combining marks, lowercase. -/
def normChar (c : Char) : List Char :=
  ((nfd c).filter (fun d => !comb d)).map lower

/-- Left part of `trim()`. -/
def trimLeft (l : List Char) : List Char := l.dropWhile ws

/-- Right part of `trim()`. -/
def trimRight (l : List Char) : List Char := (l.reverse.dropWhile ws).reverse

/-- JS `String.prototype.trim()`. -/
def trim (l : List Char) : List Char := trimLeft (trimRight l)

/-- Model of `normalize(name)` (part_001:24-48, memoization cache dropped — it only
caches the pure result):
`name.normalize('NFD').replace(/[̀-ͯ]/g, '').toLowerCase().trim()`. -/
def normalize (name : List Char) : List Char :=
  trim (((concatMap nfd name).filter (fun d => !comb d)).map lower)

/-- The normalization pipeline before the final `trim()` (decompose, strip
combining marks, lowercase), named for the idempotence proof. -/
def pipelineCore (l : List Char) : List Char :=
  ((concatMap nfd l).filter (fun d => !comb d)).map lower

/-- Word splitter: maximal runs of non-whitespace (accumulator holds the
current word reversed). -/
def wordsAux : List Char → List Char → List (List Char)
  | [], acc => if acc = [] then [] else [acc.reverse]
  | c :: t, acc =>
    if ws c then (if acc = [] then wordsAux t [] else acc.reverse :: wordsAux t [])
    else wordsAux t (c :: acc)

/-- JS `s.split(/\s+/)` for inputs without leading or trailing whitespace (the
only shape the service produces: `split` is applied to trimmed strings and to
space-joined token lists); JS returns `[""]` on the empty string. -/
def splitWs (l : List Char) : List (List Char) :=
  if l = [] then [[]] else wordsAux l []

/-- The closed set of compound-surname prefixes (part_001:66). -/
def prefixes : List (List Char) :=
  [("de").data, ("van").data, ("von").data, ("del").data, ("della").data, ("di").data,
   ("da").data, ("le").data, ("la").data, ("el").data, ("al").data, ("dos").data,
   ("das").data, ("mac").data, ("mc").data]

/-- Model of `Array.prototype.join(' ')`. -/
def joinSpace : List (List Char) → List Char
  | [] => []
  | [t] => t
  | t :: ts => t ++ (' ' :: joinSpace ts)

/-- Model of `getLastName(name)` (part_001:57-89). -/
def getLastName (name : List Char) : List Char :=
  let nameParts := splitWs (trim name)
  if nameParts.length = 1 then nameParts.headD []
  else
    let secondToLast := (nameParts.getD (nameParts.length - 2) []).map lower
    if secondToLast ∈ prefixes then joinSpace (nameParts.drop (nameParts.length - 2))
    else if 3 ≤ nameParts.length then
      let thirdToLast := (nameParts.getD (nameParts.length - 3) []).map lower
      if thirdToLast ∈ prefixes ∧
          (secondToLast ∈ prefixes ∨ secondToLast = ("der").data ∨
           secondToLast = ("den").data) then
        joinSpace (nameParts.drop (nameParts.length - 3))
      else nameParts.getLastD []
    else nameParts.getLastD []

/-- Model of `isMatch(guess, actualName)` (part_001:105-126). -/
def isMatch (guess actualName : List Char) : Bool :=
  let normalizedGuess := normalize guess
  let lastName := getLastName actualName
  let normalizedLastName := normalize lastName
  if normalizedGuess = normalizedLastName then true
  else
    let lastNameParts := splitWs lastName
    if 1 < lastNameParts.length then
      decide (normalizedGuess = normalize (lastNameParts.getLastD []))
    else false

/-- Model of `generateLetterHint(name)` (part_001:140-181, memoization cache dropped):
hyphens, apostrophes and periods of the last name survive; every other
character becomes an underscore. -/
def generateLetterHint (name : List Char) : List Char :=
  (getLastName name).map (fun c =>
    if c = '-' then '-'
    else if c = Char.ofNat 39 then Char.ofNat 39
    else if c = '.' then '.'
    else '_')

end NameMatchingService

/-! ## Theorems -/

namespace FootballAPIService

theorem sum_take_eq_specSum (l : List Nat) (k : Nat) :
    (l.take k).sum = ((List.range l.length).map (fun i => if i < k then l.getD i 0 else 0)).sum := by
  induction l generalizing k with
  | nil => simp
  | cons a t ih =>
    cases k with
    | zero => simp
    | succ k =>
      simp only [List.take_succ_cons, List.sum_cons, List.length_cons,
        List.range_succ_eq_map, List.map_cons, List.map_map]
      have h0 : (if (0 : Nat) < k + 1 then (a :: t).getD 0 0 else 0) = a := by simp
      rw [h0, ih k]
      have hmap : List.map ((fun i => if i < k + 1 then (a :: t).getD i 0 else 0) ∘ Nat.succ)
            (List.range t.length)
          = List.map (fun i => if i < k then t.getD i 0 else 0) (List.range t.length) := by
        apply List.map_congr_left
        intro i _
        simp [Function.comp, Nat.succ_lt_succ_iff]
      rw [hmap]

theorem take_sum_eq_specLineSum (parts : List Nat) (row : Nat) :
    (parts.take (row - 2)).sum = specLineSum parts row := by
  rw [sum_take_eq_specSum]
  unfold specLineSum
  congr 1
  apply List.map_congr_left
  intro i _
  have : i < row - 2 ↔ (2 ≤ i + 2 ∧ i + 2 < row) := by omega
  simp only [this]

/-- C1: for a lineup player with grid string `"r:c"` and a formation string
parsed into line sizes, the grid-to-index conversion returns 0 when `r = 1`;
for `r ≥ 2` it returns `1 + (sum of the formation-line sizes for all rows r'
with 2 ≤ r' < r) + (c - 1)`; in particular for formation `"4-4-2"`:
`"1:1" ↦ 0`, `"2:1".."2:4" ↦ 1..4`, `"3:1".."3:4" ↦ 5..8`,
`"4:1"/"4:2" ↦ 9..10`. -/
theorem convertGridToPosition_spec (grid formation : List Char) (row col : Nat)
    (hparse : (splitOnChar ':' grid).map charsToNat = [row, col]) :
    (row = 1 → convertGridToPosition grid formation = 0) ∧
    (2 ≤ row → convertGridToPosition grid formation =
        1 + (specLineSum (parseFormation formation) row : Int) + ((col : Int) - 1)) ∧
    (convertGridToPosition ("1:1").data ("4-4-2").data = 0 ∧
     convertGridToPosition ("2:1").data ("4-4-2").data = 1 ∧
     convertGridToPosition ("2:4").data ("4-4-2").data = 4 ∧
     convertGridToPosition ("3:1").data ("4-4-2").data = 5 ∧
     convertGridToPosition ("3:4").data ("4-4-2").data = 8 ∧
     convertGridToPosition ("4:1").data ("4-4-2").data = 9 ∧
     convertGridToPosition ("4:2").data ("4-4-2").data = 10) := by
  refine ⟨?_, ?_, by decide⟩
  · intro h1
    simp [convertGridToPosition, hparse, h1]
  · intro h2
    have hne : ¬ row = 1 := by omega
    simp only [convertGridToPosition, hparse, List.getD, List.get?, Option.getD,
      hne, if_false, parseFormation]
    rw [take_sum_eq_specLineSum]

/-- Witness for `convertGridToPosition_spec` at grid `"2:3"`, formation `"4-4-2"`. -/
theorem convertGridToPosition_spec_witness :
    convertGridToPosition ("2:3").data ("4-4-2").data =
      1 + (specLineSum (parseFormation ("4-4-2").data) 2 : Int) + ((3 : Int) - 1) :=
  (convertGridToPosition_spec ("2:3").data ("4-4-2").data 2 3 (by decide)).2.1 (by decide)

end FootballAPIService

namespace StorageService

theorem getItem_setItem_self {β : Type} (key : String) (v : β) (st : List (String × β)) :
    getItem key (setItem key v st) = some v := by
  induction st with
  | nil => simp [setItem, getItem]
  | cons p t ih =>
    obtain ⟨k, w⟩ := p
    by_cases h : k = key
    · simp [setItem, getItem, h]
    · simp [setItem, getItem, h, ih]

theorem getItem_removeItem_self {β : Type} (key : String) (st : List (String × β)) :
    getItem key (removeItem key st) = none := by
  induction st with
  | nil => simp [removeItem, getItem]
  | cons p t ih =>
    obtain ⟨k, w⟩ := p
    by_cases h : k = key
    · simpa [removeItem, List.filter_cons, h] using ih
    · simpa [removeItem, List.filter_cons, h, getItem] using ih

theorem getCacheEntry_save_eval {α : Type} (key : String) (d : α) (T t0 t : Nat)
    (st : Storage α) :
    getCacheEntry key t (saveCacheEntry key d T t0 st) =
      if (T : Int) ≤ (t : Int) - (t0 : Int) then
        (none, removeItem key (saveCacheEntry key d T t0 st))
      else (some d, saveCacheEntry key d T t0 st) := by
  unfold getCacheEntry saveCacheEntry
  rw [getItem_setItem_self]

/-- C9: an entry saved at time `t0` with time-to-live `T` is returned by a
lookup at time `t` iff `t - t0 < T`; at or after `t0 + T` the lookup reports
absence and the entry is purged from storage; in particular it is returned at
`t0 + T - 1` and absent and purged at `t0 + T + 1`. -/
theorem getCacheEntry_ttl_spec {α : Type} (key : String) (d : α) (T t0 t : Nat)
    (st : Storage α) :
    ((getCacheEntry key t (saveCacheEntry key d T t0 st)).1 = some d ↔
        (t : Int) - (t0 : Int) < (T : Int)) ∧
    ((T : Int) ≤ (t : Int) - (t0 : Int) →
      (getCacheEntry key t (saveCacheEntry key d T t0 st)).1 = none ∧
      getItem key (getCacheEntry key t (saveCacheEntry key d T t0 st)).2 = none) ∧
    (1 ≤ T →
      (getCacheEntry key (t0 + T - 1) (saveCacheEntry key d T t0 st)).1 = some d ∧
      (getCacheEntry key (t0 + T + 1) (saveCacheEntry key d T t0 st)).1 = none ∧
      getItem key (getCacheEntry key (t0 + T + 1) (saveCacheEntry key d T t0 st)).2 = none) := by
  refine ⟨?_, ?_, ?_⟩
  · rw [getCacheEntry_save_eval]
    split_ifs with h <;> simp <;> omega
  · intro h
    rw [getCacheEntry_save_eval, if_pos h]
    exact ⟨rfl, getItem_removeItem_self key _⟩
  · intro hT
    refine ⟨?_, ?_, ?_⟩
    · rw [getCacheEntry_save_eval, if_neg (by omega)]
    · rw [getCacheEntry_save_eval, if_pos (by omega)]
    · rw [getCacheEntry_save_eval, if_pos (by omega)]
      exact getItem_removeItem_self key _

theorem getCacheEntry_fst_none_getItem {α : Type} (key : String) (now : Nat) (st : Storage α)
    (h : (getCacheEntry key now st).1 = none) :
    getItem key (getCacheEntry key now st).2 = none := by
  unfold getCacheEntry at h ⊢
  cases hg : getItem key st with
  | none => simp [hg]
  | some e =>
    simp only [hg] at h ⊢
    by_cases hc : (e.ttl : Int) ≤ (now : Int) - (e.timestamp : Int)
    · rw [if_pos hc]
      exact getItem_removeItem_self key st
    · rw [if_neg hc] at h
      simp at h

theorem getItem_none_getCacheEntry {α : Type} (key : String) (now : Nat) (st : Storage α)
    (h : getItem key st = none) :
    getCacheEntry key now st = (none, st) := by
  unfold getCacheEntry
  rw [h]

/-- Witness for `getCacheEntry_ttl_spec`: entry saved at 100 with TTL 10 is
returned at 109 and is absent and purged at 111. -/
theorem getCacheEntry_ttl_spec_witness :
    (getCacheEntry "leagues" (100 + 10 - 1) (saveCacheEntry "leagues" (42 : Nat) 10 100 [])).1
        = some 42 ∧
    (getCacheEntry "leagues" (100 + 10 + 1) (saveCacheEntry "leagues" (42 : Nat) 10 100 [])).1
        = none ∧
    getItem "leagues"
        (getCacheEntry "leagues" (100 + 10 + 1) (saveCacheEntry "leagues" (42 : Nat) 10 100 [])).2
        = none :=
  (getCacheEntry_ttl_spec "leagues" (42 : Nat) 10 100 0 []).2.2 (by decide)

end StorageService

namespace FootballAPIService

theorem fetchAPI_step_5xx {T : Type} (attempts : Nat → FetchOutcome T)
    (rc : Nat) (r : HTTPResponse T)
    (ha : attempts rc = .success r) (h5 : 500 ≤ r.status) (h9 : r.status ≤ 599)
    (hrc : rc < MAX_RETRIES) :
    fetchAPI attempts false rc =
      ((fetchAPI attempts false (rc + 1)).1,
       (fetchAPI attempts false (rc + 1)).2.1 + 1,
       (INITIAL_RETRY_DELAY * 2 ^ rc) :: (fetchAPI attempts false (rc + 1)).2.2) := by
  rw [fetchAPI, ha]
  have h429 : ¬ r.status = 429 := by omega
  have hok : ¬ (200 ≤ r.status ∧ r.status ≤ 299) := by omega
  simp [h429, hok, h5, hrc]

theorem fetchAPI_last_5xx {T : Type} (attempts : Nat → FetchOutcome T) (r : HTTPResponse T)
    (ha : attempts MAX_RETRIES = .success r) (h5 : 500 ≤ r.status) (h9 : r.status ≤ 599) :
    fetchAPI attempts false MAX_RETRIES =
      (.error (handleAPIError r.status r.statusText), 1, []) := by
  rw [fetchAPI, ha]
  have h429 : ¬ r.status = 429 := by omega
  have hok : ¬ (200 ≤ r.status ∧ r.status ≤ 299) := by omega
  have hnr : ¬ (500 ≤ r.status ∧ MAX_RETRIES < MAX_RETRIES) := by simp
  simp [h429, hok, hnr]

theorem handleAPIError_retryable_of_5xx (s : Nat) (txt : String) (h5 : 500 ≤ s)
    (h9 : s ≤ 599) : (handleAPIError s txt).retryable = true := by
  unfold handleAPIError
  split_ifs with h1 h2 h3 h4 h5x h6 <;> first | omega | rfl | exact decide_eq_true h5

/-- C4: if every network attempt for a logical request yields an HTTP 5xx
response, the fetch pipeline performs exactly 4 attempts (1 initial + 3
retries) with exponential backoff delays `[1000, 2000, 4000]` ms between them,
and then settles with an `APIError` whose `retryable` flag is `true` (the
result type rules out any non-`APIError` escape). -/
theorem fetchAPI_5xx_exhaustion {T : Type} (attempts : Nat → FetchOutcome T)
    (h5xx : ∀ n, ∃ r, attempts n = .success r ∧ 500 ≤ r.status ∧ r.status ≤ 599) :
    (fetchAPI attempts false 0).2.1 = 4 ∧
    (fetchAPI attempts false 0).2.2 = [1000, 2000, 4000] ∧
    ∃ e, (fetchAPI attempts false 0).1 = Except.error e ∧ e.retryable = true := by
  obtain ⟨r0, ha0, h50, h90⟩ := h5xx 0
  obtain ⟨r1, ha1, h51, h91⟩ := h5xx 1
  obtain ⟨r2, ha2, h52, h92⟩ := h5xx 2
  obtain ⟨r3, ha3, h53, h93⟩ := h5xx 3
  have e0 := fetchAPI_step_5xx attempts 0 r0 ha0 h50 h90 (by decide)
  have e1 := fetchAPI_step_5xx attempts 1 r1 ha1 h51 h91 (by decide)
  have e2 := fetchAPI_step_5xx attempts 2 r2 ha2 h52 h92 (by decide)
  have e3 : fetchAPI attempts false (2 + 1) =
      (Except.error (handleAPIError r3.status r3.statusText), 1, []) :=
    fetchAPI_last_5xx attempts r3 ha3 h53 h93
  rw [e0, e1, e2, e3]
  exact ⟨by norm_num, by norm_num [INITIAL_RETRY_DELAY],
    handleAPIError r3.status r3.statusText, by norm_num,
    handleAPIError_retryable_of_5xx r3.status r3.statusText h53 h93⟩

/-- Witness for `fetchAPI_5xx_exhaustion`: every attempt answers plain 500. -/
theorem fetchAPI_5xx_exhaustion_witness :
    (fetchAPI (fun _ => FetchOutcome.success
        (⟨500, "Internal Server Error", none, [], ([] : List Nat)⟩ : HTTPResponse Nat))
      false 0).2.1 = 4 ∧
    (fetchAPI (fun _ => FetchOutcome.success
        (⟨500, "Internal Server Error", none, [], ([] : List Nat)⟩ : HTTPResponse Nat))
      false 0).2.2 = [1000, 2000, 4000] ∧
    ∃ e, (fetchAPI (fun _ => FetchOutcome.success
        (⟨500, "Internal Server Error", none, [], ([] : List Nat)⟩ : HTTPResponse Nat))
      false 0).1 = Except.error e ∧ e.retryable = true :=
  fetchAPI_5xx_exhaustion _ (fun _ => ⟨_, rfl, by decide, by decide⟩)

/-- C2 counterexample: two concurrent `getFixtures(5, 2020)` calls (the second
starts while the first is still in flight — no settlement in between) each
issue a network call; the second does not join a pending request, so the
claimed per-key deduplication invariant fails for the fixtures operation. -/
theorem getFixtures_no_dedup_counterexample :
    (getFixturesStart 5 2020 0 (⟨[], [], 0⟩ : DedupState (List Nat))).1 =
        StartResult.startedFetch ∧
    (getFixturesStart 5 2020 0
        (getFixturesStart 5 2020 0 (⟨[], [], 0⟩ : DedupState (List Nat))).2).1 =
        StartResult.startedFetch ∧
    (getFixturesStart 5 2020 0
        (getFixturesStart 5 2020 0 (⟨[], [], 0⟩ : DedupState (List Nat))).2).1 ≠
        StartResult.joinedPending ∧
    (getFixturesStart 5 2020 0
        (getFixturesStart 5 2020 0 (⟨[], [], 0⟩ : DedupState (List Nat))).2).2.networkCalls
        = 2 := by
  decide

/-- C2 amended: the deduplication invariant holds for the leagues operation —
a second `getLeagues()` call made while one is pending issues no new network
call and returns the shared pending result, and settlement (success or
failure) removes the pending marker — while the fixtures operation performs no
deduplication: on a cache miss it always issues a fresh network call. -/
theorem getLeagues_dedup_spec {α : Type} (now : Nat) (s : DedupState α) (v : α)
    (now2 : Nat) (s2 : DedupState α) (teamId season now3 : Nat) (s3 : DedupState α)
    (hmiss : (StorageService.getCacheEntry "leagues" now s.cache).1 = none)
    (hpend : "leagues" ∈ s.pending)
    (hcount : s2.pending.count "leagues" ≤ 1)
    (hmiss3 : (StorageService.getCacheEntry (fixturesCacheKey teamId season) now3
        s3.cache).1 = none) :
    (getLeaguesStart now s).1 = StartResult.joinedPending ∧
    (getLeaguesStart now s).2.networkCalls = s.networkCalls ∧
    (getLeaguesStart now s).2.pending = s.pending ∧
    "leagues" ∉ (getLeaguesSettleSuccess v now2 s2).pending ∧
    "leagues" ∉ (getLeaguesSettleFailure s2).pending ∧
    (getFixturesStart teamId season now3 s3).1 = StartResult.startedFetch ∧
    (getFixturesStart teamId season now3 s3).2.networkCalls = s3.networkCalls + 1 := by
  rcases hp : StorageService.getCacheEntry "leagues" now s.cache with ⟨o, c1⟩
  rw [hp] at hmiss
  simp only at hmiss
  subst hmiss
  have herase : "leagues" ∉ s2.pending.erase "leagues" := by
    rw [← List.count_pos_iff, List.count_erase_self]
    omega
  rcases hp3 : StorageService.getCacheEntry (fixturesCacheKey teamId season) now3 s3.cache
    with ⟨o3, c3⟩
  rw [hp3] at hmiss3
  simp only at hmiss3
  subst hmiss3
  refine ⟨?_, ?_, ?_, herase, herase, ?_, ?_⟩ <;>
    simp [getLeaguesStart, getFixturesStart, getLeaguesSettleSuccess, getLeaguesSettleFailure,
      hp, hp3, hpend]

/-- Witness for `getLeagues_dedup_spec`: a `getLeagues` call joins the single
pending request, and the fixtures call issues a fresh fetch. -/
theorem getLeagues_dedup_spec_witness :
    (getLeaguesStart 0 (⟨["leagues"], [], 1⟩ : DedupState Nat)).1 =
        StartResult.joinedPending ∧
    (getLeaguesStart 0 (⟨["leagues"], [], 1⟩ : DedupState Nat)).2.networkCalls = 1 ∧
    (getLeaguesStart 0 (⟨["leagues"], [], 1⟩ : DedupState Nat)).2.pending = ["leagues"] ∧
    "leagues" ∉ (getLeaguesSettleSuccess 42 7 (⟨["leagues"], [], 1⟩ : DedupState Nat)).pending ∧
    "leagues" ∉ (getLeaguesSettleFailure (⟨["leagues"], [], 1⟩ : DedupState Nat)).pending ∧
    (getFixturesStart 5 2020 0 (⟨["leagues"], [], 1⟩ : DedupState Nat)).1 =
        StartResult.startedFetch ∧
    (getFixturesStart 5 2020 0 (⟨["leagues"], [], 1⟩ : DedupState Nat)).2.networkCalls
        = 1 + 1 :=
  getLeagues_dedup_spec 0 (⟨["leagues"], [], 1⟩ : DedupState Nat) 42 7
    (⟨["leagues"], [], 1⟩ : DedupState Nat) 5 2020 0 (⟨["leagues"], [], 1⟩ : DedupState Nat)
    (by rfl) (by decide) (by decide) (by rfl)

/-- C5: on a cache miss with a successfully fetched payload, `getLineup` fails
when the requested team id matches no payload entry, and fails when the
selected team's starting lineup does not contain exactly eleven players;
both failures are plain errors (`ServiceError.plain`), a constructor disjoint
from `ServiceError.api` (`APIError`). -/
theorem getLineup_validation_spec (fixtureId teamId now : Nat)
    (response : List TeamLineupResponse) (st : StorageService.Storage Lineup)
    (hmiss : (StorageService.getCacheEntry (lineupCacheKey fixtureId teamId) now st).1 = none) :
    (response.find? (fun item => item.team.id == teamId) = none →
      (getLineup fixtureId teamId now (.ok response) st).1 =
        .error (.plain ("Lineup not found for team " ++ toString teamId ++ " in fixture "
          ++ toString fixtureId))) ∧
    (∀ teamLineup, response.find? (fun item => item.team.id == teamId) = some teamLineup →
      teamLineup.startXI.length ≠ 11 →
      (getLineup fixtureId teamId now (.ok response) st).1 =
        .error (.plain ("Invalid lineup: expected 11 players, got "
          ++ toString teamLineup.startXI.length))) ∧
    (∀ (m : String) (e : APIError), ServiceError.plain m ≠ ServiceError.api e) := by
  rcases hp : StorageService.getCacheEntry (lineupCacheKey fixtureId teamId) now st with ⟨o, st1⟩
  rw [hp] at hmiss
  simp only at hmiss
  subst hmiss
  refine ⟨?_, ?_, fun m e h => by cases h⟩
  · intro hfind
    simp [getLineup, hp, hfind]
  · intro teamLineup hfind h11
    simp [getLineup, hp, hfind, List.length_map, h11]

/-- Witness for `getLineup_validation_spec`: empty storage and a payload that
does not contain the requested team. -/
theorem getLineup_validation_spec_witness :
    (getLineup 1 7 0 (.ok []) []).1 =
      .error (.plain ("Lineup not found for team " ++ toString 7 ++ " in fixture "
        ++ toString 1)) :=
  (getLineup_validation_spec 1 7 0 [] [] (by decide)).1 (by decide)

/-- C10: if `getLineup` fails, no cache entry is written under its key
`lineup-{fixtureId}-{teamId}`: the key is absent from the resulting storage,
the storage is exactly the post-lookup storage (the only mutation a failing
call can make is the lookup's purge of an expired entry), and a subsequent
call for the same fixture and team performs a network fetch. -/
theorem getLineup_no_cache_write_on_error (fixtureId teamId now now2 : Nat)
    (fetched fetched2 : Except APIError (List TeamLineupResponse))
    (st : StorageService.Storage Lineup) (e : ServiceError)
    (herr : (getLineup fixtureId teamId now fetched st).1 = .error e) :
    StorageService.getItem (lineupCacheKey fixtureId teamId)
        (getLineup fixtureId teamId now fetched st).2.1 = none ∧
    (getLineup fixtureId teamId now fetched st).2.1 =
      (StorageService.getCacheEntry (lineupCacheKey fixtureId teamId) now st).2 ∧
    (getLineup fixtureId teamId now2 fetched2
        ((getLineup fixtureId teamId now fetched st).2.1)).2.2 = true := by
  rcases hp : StorageService.getCacheEntry (lineupCacheKey fixtureId teamId) now st with ⟨o, st1⟩
  cases o with
  | some cached => simp [getLineup, hp] at herr
  | none =>
    have hitem : StorageService.getItem (lineupCacheKey fixtureId teamId) st1 = none := by
      have := StorageService.getCacheEntry_fst_none_getItem
        (lineupCacheKey fixtureId teamId) now st (by rw [hp])
      rwa [hp] at this
    have hres : (getLineup fixtureId teamId now fetched st).2.1 = st1 := by
      cases fetched with
      | error e1 => simp [getLineup, hp]
      | ok response =>
        cases hfind : response.find? (fun item => item.team.id == teamId) with
        | none => simp [getLineup, hp, hfind]
        | some teamLineup =>
          by_cases h11 : teamLineup.startXI.length = 11
          · exfalso
            simp [getLineup, hp, hfind, List.length_map, h11] at herr
          · simp [getLineup, hp, hfind, List.length_map, h11]
    refine ⟨?_, ?_, ?_⟩
    · rw [hres]; exact hitem
    · simp [hres, hp]
    rw [hres]
    have hcache2 := StorageService.getItem_none_getCacheEntry
      (lineupCacheKey fixtureId teamId) now2 st1 hitem
    cases fetched2 with
    | error e2 => simp [getLineup, hcache2]
    | ok response2 =>
      cases hfind2 : response2.find? (fun item => item.team.id == teamId) with
      | none => simp [getLineup, hcache2, hfind2]
      | some tl2 =>
        by_cases h11 : tl2.startXI.length = 11
        · simp [getLineup, hcache2, hfind2, List.length_map, h11]
        · simp [getLineup, hcache2, hfind2, List.length_map, h11]

/-- Witness for `getLineup_no_cache_write_on_error`: ten-player payload for the
requested team, empty storage. -/
theorem getLineup_no_cache_write_on_error_witness :
    StorageService.getItem (lineupCacheKey 1 7)
        (getLineup 1 7 0 (.ok [⟨⟨7, "A"⟩, ("4-4-2").data,
          List.replicate 10 ⟨⟨9, "P", 9, "G", ("1:1").data⟩⟩⟩]) []).2.1 = none ∧
    (getLineup 1 7 0 (.ok [⟨⟨7, "A"⟩, ("4-4-2").data,
          List.replicate 10 ⟨⟨9, "P", 9, "G", ("1:1").data⟩⟩⟩]) []).2.1 =
      (StorageService.getCacheEntry (lineupCacheKey 1 7) 0 []).2 ∧
    (getLineup 1 7 5 (.ok [])
        ((getLineup 1 7 0 (.ok [⟨⟨7, "A"⟩, ("4-4-2").data,
          List.replicate 10 ⟨⟨9, "P", 9, "G", ("1:1").data⟩⟩⟩]) []).2.1)).2.2 = true :=
  getLineup_no_cache_write_on_error 1 7 0 5 _ (.ok []) []
    (.plain ("Invalid lineup: expected 11 players, got " ++ toString 10)) (by rfl)

end FootballAPIService

namespace NameMatchingService

/-- C3 counterexample: for `"Juan de la Cruz"` both the second-to-last token
(`"la"`) and the third-to-last token (`"de"`) are prefixes, so the claim
prescribes the last three tokens `"de la Cruz"`; the code's two-token branch
returns first and yields `"la Cruz"`. -/
theorem getLastName_counterexample :
    getLastName ("Juan de la Cruz").data = ("la Cruz").data ∧
    getLastName ("Juan de la Cruz").data ≠ ("de la Cruz").data := by
  decide

/-- C3 amended: a single-token name is returned unchanged; when the lowercased
second-to-last token is in the prefix set, the last two tokens joined by a
space are returned — even when the third-to-last token is itself a prefix; the
last three tokens are returned exactly when the second-to-last token is not a
prefix but is `"der"` or `"den"` and the third-to-last token is a prefix;
otherwise only the final token is returned.  The claim's concrete examples
hold. -/
theorem getLastName_spec (name : List Char) (parts : List (List Char))
    (hsplit : splitWs (trim name) = parts) :
    (parts.length = 1 → getLastName name = parts.headD []) ∧
    (parts.length ≠ 1 → (parts.getD (parts.length - 2) []).map lower ∈ prefixes →
      getLastName name = joinSpace (parts.drop (parts.length - 2))) ∧
    (3 ≤ parts.length → (parts.getD (parts.length - 2) []).map lower ∉ prefixes →
      (parts.getD (parts.length - 3) []).map lower ∈ prefixes →
      ((parts.getD (parts.length - 2) []).map lower = ("der").data ∨
       (parts.getD (parts.length - 2) []).map lower = ("den").data) →
      getLastName name = joinSpace (parts.drop (parts.length - 3))) ∧
    (parts.length ≠ 1 → (parts.getD (parts.length - 2) []).map lower ∉ prefixes →
      ¬(3 ≤ parts.length ∧ (parts.getD (parts.length - 3) []).map lower ∈ prefixes ∧
        ((parts.getD (parts.length - 2) []).map lower = ("der").data ∨
         (parts.getD (parts.length - 2) []).map lower = ("den").data)) →
      getLastName name = parts.getLastD []) ∧
    (getLastName ("Matthijs de Ligt").data = ("de Ligt").data ∧
     getLastName ("Cristiano Ronaldo").data = ("Ronaldo").data ∧
     getLastName ("Pelé").data = ("Pelé").data ∧
     getLastName ("Jan van der Berg").data = ("van der Berg").data) := by
  refine ⟨?_, ?_, ?_, ?_, by decide⟩
  · intro h1
    simp [getLastName, hsplit, h1]
  · intro h1 h2
    simp only [getLastName, hsplit]
    rw [if_neg h1, if_pos h2]
  · intro h3 h2 hthird hder
    have h1 : ¬ parts.length = 1 := by omega
    simp only [getLastName, hsplit, h1, if_false, if_neg h2, if_pos h3,
      if_pos (⟨hthird, Or.inr hder⟩ :
        (parts.getD (parts.length - 3) []).map lower ∈ prefixes ∧
        ((parts.getD (parts.length - 2) []).map lower ∈ prefixes ∨
         (parts.getD (parts.length - 2) []).map lower = ("der").data ∨
         (parts.getD (parts.length - 2) []).map lower = ("den").data))]
  · intro h1 h2 hnot
    simp only [getLastName, hsplit]
    rw [if_neg h1, if_neg h2]
    by_cases h3 : 3 ≤ parts.length
    · have hcond : ¬((parts.getD (parts.length - 3) []).map lower ∈ prefixes ∧
          ((parts.getD (parts.length - 2) []).map lower ∈ prefixes ∨
           (parts.getD (parts.length - 2) []).map lower = ("der").data ∨
           (parts.getD (parts.length - 2) []).map lower = ("den").data)) := by
        rintro ⟨ha, hb | hb | hb⟩
        · exact h2 hb
        · exact hnot ⟨h3, ha, Or.inl hb⟩
        · exact hnot ⟨h3, ha, Or.inr hb⟩
      rw [if_pos h3, if_neg hcond]
    · rw [if_neg h3]

/-- Witness for `getLastName_spec` at `"Matthijs de Ligt"`: the two-token
branch applies. -/
theorem getLastName_spec_witness :
    getLastName ("Matthijs de Ligt").data =
      joinSpace ((splitWs (trim ("Matthijs de Ligt").data)).drop
        ((splitWs (trim ("Matthijs de Ligt").data)).length - 2)) :=
  (getLastName_spec ("Matthijs de Ligt").data _ rfl).2.1 (by decide) (by decide)

/-- C6: `isMatch` succeeds exactly when the normalized guess equals the
normalized last name, or — when the last name has more than one token — when it
equals the normalization of the last name's final token; the claim's concrete
examples hold (a first name alone does not match). -/
theorem isMatch_spec (guess actualName : List Char) :
    (isMatch guess actualName = true ↔
      (normalize guess = normalize (getLastName actualName) ∨
       (1 < (splitWs (getLastName actualName)).length ∧
        normalize guess = normalize ((splitWs (getLastName actualName)).getLastD [])))) ∧
    isMatch ("ligt").data ("Matthijs de Ligt").data = true ∧
    isMatch ("de ligt").data ("Matthijs de Ligt").data = true ∧
    isMatch ("matthijs").data ("Matthijs de Ligt").data = false := by
  refine ⟨?_, by decide, by decide, by decide⟩
  unfold isMatch
  by_cases h1 : normalize guess = normalize (getLastName actualName)
  · simp [h1]
  · rw [if_neg h1]
    by_cases h2 : 1 < (splitWs (getLastName actualName)).length
    · rw [if_pos h2]
      simp [h1, h2]
    · rw [if_neg h2]
      simp [h1, h2]

/-- C7: the letter hint has exactly the length of the last name, and at every
index it shows the last name's character if that character is a hyphen,
apostrophe or period, and an underscore otherwise. -/
theorem generateLetterHint_spec (name : List Char) (i : Nat)
    (h : i < (getLastName name).length) :
    (generateLetterHint name).length = (getLastName name).length ∧
    (generateLetterHint name).getD i '_' =
      (if (getLastName name).getD i '_' = '-' ∨
          (getLastName name).getD i '_' = Char.ofNat 39 ∨
          (getLastName name).getD i '_' = '.'
       then (getLastName name).getD i '_' else '_') := by
  unfold generateLetterHint
  refine ⟨List.length_map _ _, ?_⟩
  rw [List.getD_eq_getElem?_getD, List.getElem?_map,
    List.getElem?_eq_getElem h, List.getD_eq_getElem?_getD, List.getElem?_eq_getElem h]
  simp only [Option.map_some', Option.getD_some]
  by_cases hc : (getLastName name)[i] = '-' ∨ (getLastName name)[i] = Char.ofNat 39 ∨
      (getLastName name)[i] = '.'
  · rw [if_pos hc]
    rcases hc with hc | hc | hc <;> rw [hc] <;> decide
  · rw [if_neg hc]
    push_neg at hc
    simp [hc.1, hc.2.1, hc.2.2]

theorem nfdTable_keys_lt : ∀ p ∈ nfdTable, p.1.toNat < 0x180 := by decide

theorem assocLookup_none_of_ge {β : Type} (l : List (Char × β))
    (hk : ∀ p ∈ l, p.1.toNat < 0x180) (c : Char) (hc : 0x180 ≤ c.toNat) :
    assocLookup c l = none := by
  induction l with
  | nil => rfl
  | cons p t ih =>
    obtain ⟨k, w⟩ := p
    have hklt : k.toNat < 0x180 := hk (k, w) (List.mem_cons_self _ _)
    have hne : ¬ k = c := fun h => by subst h; omega
    simp only [assocLookup, if_neg hne]
    exact ih (fun q hq => hk q (List.mem_cons_of_mem _ hq))

set_option maxRecDepth 10000 in
theorem normChar_bounded_fixed : ((List.range 0x180).all
    (fun n => (normChar (Char.ofNat n)).all (fun d => normChar d == [d]))) = true := by
  decide

theorem lower_eq_self_of_ge (c : Char) (hc : 0x180 ≤ c.toNat) : lower c = c := by
  unfold lower
  rw [if_neg (by omega), if_neg (by omega)]

theorem normChar_of_ge (c : Char) (hc : 0x180 ≤ c.toNat) :
    normChar c = if comb c then [] else [c] := by
  unfold normChar nfd
  rw [assocLookup_none_of_ge nfdTable nfdTable_keys_lt c hc]
  by_cases hcb : comb c
  · simp [hcb]
  · simp [hcb, lower_eq_self_of_ge c hc]

theorem normChar_fixed (c : Char) : ∀ d ∈ normChar c, normChar d = [d] := by
  by_cases hc : c.toNat < 0x180
  · intro d hd
    have hb := normChar_bounded_fixed
    rw [List.all_eq_true] at hb
    have h1 := hb c.toNat (List.mem_range.mpr hc)
    rw [List.all_eq_true] at h1
    rw [Char.ofNat_toNat c] at h1
    exact eq_of_beq (h1 d hd)
  · intro d hd
    push_neg at hc
    rw [normChar_of_ge c hc] at hd
    by_cases hcb : comb c
    · rw [if_pos hcb] at hd
      cases hd
    · rw [if_neg hcb] at hd
      have hdc : d = c := by simpa using hd
      subst hdc
      rw [normChar_of_ge d hc, if_neg hcb]

theorem pipelineCore_cons (c : Char) (t : List Char) :
    pipelineCore (c :: t) = normChar c ++ pipelineCore t := by
  simp [pipelineCore, normChar, concatMap, List.filter_append, List.map_append]

theorem pipelineCore_eq (l : List Char) : pipelineCore l = concatMap normChar l := by
  induction l with
  | nil => rfl
  | cons c t ih => rw [pipelineCore_cons, concatMap, ih]

theorem concatMap_fixed (l : List Char) (h : ∀ d ∈ l, normChar d = [d]) :
    concatMap normChar l = l := by
  induction l with
  | nil => rfl
  | cons a t ih =>
    rw [concatMap, h a (List.mem_cons_self _ _),
      ih (fun d hd => h d (List.mem_cons_of_mem _ hd))]
    rfl

theorem mem_concatMap {A B : Type} (f : A → List B) (l : List A) (d : B)
    (hd : d ∈ concatMap f l) : ∃ c ∈ l, d ∈ f c := by
  induction l with
  | nil => cases hd
  | cons a t ih =>
    rw [concatMap] at hd
    rcases List.mem_append.mp hd with h | h
    · exact ⟨a, List.mem_cons_self _ _, h⟩
    · obtain ⟨c, hc, hdc⟩ := ih h
      exact ⟨c, List.mem_cons_of_mem _ hc, hdc⟩

theorem dropWhile_head?_not {α : Type} (p : α → Bool) (l : List α) :
    ∀ a, (l.dropWhile p).head? = some a → p a = false := by
  induction l with
  | nil => intro a h; cases h
  | cons b t ih =>
    intro a h
    rw [List.dropWhile_cons] at h
    by_cases hb : p b
    · rw [if_pos hb] at h
      exact ih a h
    · rw [if_neg hb] at h
      have : a = b := by simpa using h.symm
      subst this
      exact Bool.not_eq_true _ ▸ hb

theorem dropWhile_eq_self_of_head? {α : Type} (p : α → Bool) (l : List α)
    (h : ∀ a, l.head? = some a → p a = false) : l.dropWhile p = l := by
  cases l with
  | nil => rfl
  | cons b t =>
    rw [List.dropWhile_cons, h b rfl]
    simp

theorem dropWhile_idem {α : Type} (p : α → Bool) (l : List α) :
    (l.dropWhile p).dropWhile p = l.dropWhile p :=
  dropWhile_eq_self_of_head? p _ (dropWhile_head?_not p l)

theorem mem_trim {d : Char} {l : List Char} (h : d ∈ trim l) : d ∈ l := by
  unfold trim trimLeft trimRight at h
  have h1 := ((List.dropWhile_suffix ws).sublist).subset h
  rw [List.mem_reverse] at h1
  have h2 := ((List.dropWhile_suffix ws).sublist).subset h1
  rwa [List.mem_reverse] at h2

theorem trim_idem (l : List Char) : trim (trim l) = trim l := by
  have ha : trimLeft (trim l) = trim l := by
    unfold trim trimLeft
    exact dropWhile_idem ws _
  have hb : trimRight (trim l) = trim l := by
    have hhead : ∀ a, (trim l).reverse.head? = some a → ws a = false := by
      intro a hh
      rw [List.head?_reverse] at hh
      have hne : trim l ≠ [] := by
        intro h0
        rw [h0] at hh
        cases hh
      obtain ⟨pre, hpre⟩ := List.dropWhile_suffix (l := trimRight l) ws
      have hgl : (trimRight l).getLast? = some a := by
        have : trim l = (trimRight l).dropWhile ws := rfl
        rw [← hpre, List.getLast?_append_of_ne_nil pre (this ▸ hne), ← this, hh]
      have hw : (trimRight l).reverse = l.reverse.dropWhile ws := by
        unfold trimRight
        rw [List.reverse_reverse]
      apply dropWhile_head?_not ws l.reverse a
      rw [← hw, List.head?_reverse]
      exact hgl
    have hself : (trim l).reverse.dropWhile ws = (trim l).reverse :=
      dropWhile_eq_self_of_head? ws _ hhead
    unfold trimRight
    rw [hself, List.reverse_reverse]
  conv_lhs => rw [trim.eq_def, hb, ha]

/-- C8: `normalize` is idempotent: for every string `s`,
`normalize (normalize s) = normalize s`. -/
theorem normalize_idem (s : List Char) : normalize (normalize s) = normalize s := by
  have hcore : ∀ l, normalize l = trim (pipelineCore l) := fun _ => rfl
  have hfix : ∀ d ∈ normalize s, normChar d = [d] := by
    intro d hd
    rw [hcore] at hd
    have hd2 : d ∈ pipelineCore s := mem_trim hd
    rw [pipelineCore_eq] at hd2
    obtain ⟨c, _, hdc⟩ := mem_concatMap normChar s d hd2
    exact normChar_fixed c d hdc
  have h1 : pipelineCore (normalize s) = normalize s := by
    rw [pipelineCore_eq]
    exact concatMap_fixed _ hfix
  rw [hcore (normalize s), h1, hcore s, trim_idem]

/-- Witness for `generateLetterHint_spec` at `"O'Brien"`, index 1 (the
apostrophe). -/
theorem generateLetterHint_spec_witness :
    (generateLetterHint ('O' :: Char.ofNat 39 :: ("Brien").data)).length =
      (getLastName ('O' :: Char.ofNat 39 :: ("Brien").data)).length ∧
    (generateLetterHint ('O' :: Char.ofNat 39 :: ("Brien").data)).getD 1 '_' =
      (if (getLastName ('O' :: Char.ofNat 39 :: ("Brien").data)).getD 1 '_' = '-' ∨
          (getLastName ('O' :: Char.ofNat 39 :: ("Brien").data)).getD 1 '_' = Char.ofNat 39 ∨
          (getLastName ('O' :: Char.ofNat 39 :: ("Brien").data)).getD 1 '_' = '.'
       then (getLastName ('O' :: Char.ofNat 39 :: ("Brien").data)).getD 1 '_' else '_') :=
  generateLetterHint_spec ('O' :: Char.ofNat 39 :: ("Brien").data) 1 (by decide)

end NameMatchingService

end ClassicCaps
